import Mathlib

/-! Verification of the Priority-Tiered Combinatorial Selection Engine of
`Load_Shedding.py`.

The model below is a shallow embedding of the two algorithmic functions of the
source, `generate_combinations` (the Subset Matcher) and `find_combination`
(the Tiered Selector), together with the `Node` data class.  Power values and
targets are modelled as rationals, Python's `itertools.combinations` as a
recursive enumeration in the same (lexicographic-by-position) order, the
priority dictionary as a partial map `Nat → Option (List Node)`, and the
`KeyError` a missing dictionary key raises as the `Except` error branch.
-/

/-- Model of `Node` from the source: a sheddable load with a power rating, a priority
tier (1 = most critical, 5 = least critical) and the transient `selected`
flag (initialised to `false` by the constructor and never written by the
search functions). -/
structure Node where
  real_power : ℚ
  priority : ℕ
  selected : Bool := false
deriving DecidableEq

/-- Model of `sum(node.real_power for node in comb)`: the total power of a set of
nodes. -/
def totalPower (comb : List Node) : ℚ :=
  (comb.map Node.real_power).sum

/-- Model of `itertools.combinations(nodes, r)`: all length-`r` subsequences of
`nodes`, in lexicographic order of positions (the order `itertools` emits). -/
def pyCombinations {α : Type} : ℕ → List α → List (List α)
  | 0, _ => [[]]
  | _ + 1, [] => []
  | r + 1, x :: xs => (pyCombinations r xs).map (x :: ·) ++ pyCombinations (r + 1) xs

/-- The full enumeration order of `generate_combinations`:
`for r in range(1, len(nodes) + 1): for comb in combinations(nodes, r)`. -/
def allCombinations (nodes : List Node) : List (List Node) :=
  (List.range' 1 nodes.length).flatMap (fun r => pyCombinations r nodes)

/-- The tolerance band test of line 29 of the source:
`target_real - tolerance <= total_power <= target_real + tolerance`. -/
def inBand (t tol s : ℚ) : Prop :=
  t - tol ≤ s ∧ s ≤ t + tol

instance (t tol s : ℚ) : Decidable (inBand t tol s) :=
  inferInstanceAs (Decidable (_ ∧ _))

/-- Absolute deviation `abs(total_power - target_real)` from line 30. -/
def dev (t s : ℚ) : ℚ := |s - t|

/-- One step of the best-so-far accumulation of `generate_combinations`
(lines 28–32): a combination inside the band replaces the current best
exactly when there is no best yet or its deviation is strictly smaller. -/
def gcStep (t tol : ℚ) (best : Option (List Node × ℚ)) (comb : List Node) :
    Option (List Node × ℚ) :=
  let s := totalPower comb
  if inBand t tol s then
    match best with
    | none => some (comb, s)
    | some (b, bp) => if dev t s < dev t bp then some (comb, s) else some (b, bp)
  else best

/-- Model of `generate_combinations(nodes, target_real, tolerance)`
(lines 18–34 of the source): fold the best-so-far update over every non-empty combination, sizes
1 up to `len(nodes)`.  The Python pair `(best_combination, best_power)` is
`none`/`none` exactly together, so it is modelled as one `Option` of a pair. -/
def generate_combinations (nodes : List Node) (t tol : ℚ) :
    Option (List Node × ℚ) :=
  (allCombinations nodes).foldl (gcStep t tol) none

/-- The fault a Python `dict` lookup of a missing key raises. -/
inductive PyError where
  | keyError
deriving DecidableEq

/-- The tier catalog `nodes_by_priority`: a Python dictionary from priority
level to list of nodes, i.e. a partial map. -/
def Tiers : Type := ℕ → Option (List Node)

/-- Model of `nodes_by_priority[priority]`: returns the tier or raises `KeyError`. -/
def getTier (tiers : Tiers) (p : ℕ) : Except PyError (List Node) :=
  match tiers p with
  | some l => Except.ok l
  | none => Except.error PyError.keyError

/-- The priority levels visited at radius `r`:
`range(5, 6 - r, -1)`, i.e. 5, 4, …, 7 − r (descending). -/
def radiusPriorities (r : ℕ) : List ℕ :=
  (List.range' (7 - r) (r - 1)).reverse

/-- Model of `nodes_to_check` built at radius `r` (lines 52–54): start from the empty
list and `extend` with `nodes_by_priority[priority]` for each visited
priority, propagating a `KeyError` from the first missing key. -/
def nodesToCheck (tiers : Tiers) (r : ℕ) : Except PyError (List Node) :=
  (radiusPriorities r).foldlM
    (fun acc p => do
      let l ← getTier tiers p
      pure (acc ++ l))
    []

/-- The loop `for r in range(5, 0, -1)` of `find_combination`, counting the
remaining radii: at counter `r + 1` the body runs with radius `r + 1`,
breaking with a success result on the first match; at counter 0 the loop is
exhausted and the function returns `(set(), None, False)` (the last
iteration, radius 1, always leaves `best_power = None` because its candidate
pool is empty). -/
def findCombinationAux (tiers : Tiers) (t tol : ℚ) :
    ℕ → Except PyError (List Node × Option ℚ × Bool)
  | 0 => Except.ok ([], none, false)
  | r + 1 => do
      let pool ← nodesToCheck tiers (r + 1)
      match generate_combinations pool t tol with
      | some (c, p) => Except.ok (c, some p, true)
      | none => findCombinationAux tiers t tol r

/-- Model of `find_combination(nodes_by_priority, target_real, tolerance)`
(lines 45–66 of the source). -/
def find_combination (tiers : Tiers) (t tol : ℚ) :
    Except PyError (List Node × Option ℚ × Bool) :=
  findCombinationAux tiers t tol 5

/-- A catalog shaped like the source's `nodes_by_priority` literal: exactly
the keys 1–5 are present, bound to the five given tier lists. -/
def mkTiers (l1 l2 l3 l4 l5 : List Node) : Tiers :=
  fun p =>
    if p = 1 then some l1
    else if p = 2 then some l2
    else if p = 3 then some l3
    else if p = 4 then some l4
    else if p = 5 then some l5
    else none

/-- The candidate pool at radius `r` for a catalog whose lookups succeed:
the concatenation of the visited tiers in visit order. -/
def poolAt (tiers : Tiers) (r : ℕ) : List Node :=
  (radiusPriorities r).foldl (fun acc p => acc ++ ((tiers p).getD [])) []

example :
    pyCombinations 2 [(1 : ℕ), 2, 3] = [[1, 2], [1, 3], [2, 3]] := by decide

example :
    generate_combinations
      [⟨90, 5, false⟩, ⟨100, 5, false⟩, ⟨110, 5, false⟩] 200 20 =
      some ([⟨90, 5, false⟩, ⟨110, 5, false⟩], 200) := by
  norm_num [generate_combinations, allCombinations, pyCombinations, gcStep,
    inBand, dev, totalPower, List.range']

/-! The enumeration order: membership characterisations -/

theorem mem_pyCombinations {α : Type} :
    ∀ (r : ℕ) (l c : List α),
      c ∈ pyCombinations r l ↔ List.Sublist c l ∧ c.length = r := by
  intro r l
  induction l generalizing r with
  | nil =>
    intro c
    cases r with
    | zero =>
      simp only [pyCombinations, List.mem_singleton, List.sublist_nil]
      constructor
      · rintro rfl; exact ⟨rfl, rfl⟩
      · rintro ⟨rfl, _⟩; rfl
    | succ r =>
      simp only [pyCombinations, List.not_mem_nil, false_iff, not_and,
        List.sublist_nil]
      rintro rfl
      simp
  | cons x xs ih =>
    intro c
    cases r with
    | zero =>
      simp only [pyCombinations, List.mem_singleton, List.length_eq_zero]
      constructor
      · rintro rfl; exact ⟨List.nil_sublist _, rfl⟩
      · rintro ⟨_, rfl⟩; rfl
    | succ r =>
      simp only [pyCombinations, List.mem_append, List.mem_map, ih]
      constructor
      · rintro (⟨a, ⟨hs, hl⟩, rfl⟩ | ⟨hs, hl⟩)
        · exact ⟨List.Sublist.cons₂ x hs, by simp [hl]⟩
        · exact ⟨List.Sublist.cons x hs, hl⟩
      · rintro ⟨hs, hl⟩
        cases hs with
        | cons _ h => exact Or.inr ⟨h, hl⟩
        | cons₂ _ h =>
          exact Or.inl ⟨_, ⟨h, by simpa using hl⟩, rfl⟩

theorem mem_allCombinations (nodes : List Node) (c : List Node) :
    c ∈ allCombinations nodes ↔ List.Sublist c nodes ∧ c ≠ [] := by
  unfold allCombinations
  simp only [List.mem_flatMap, List.mem_range'_1, mem_pyCombinations]
  constructor
  · rintro ⟨r, ⟨h1, _⟩, hs, hl⟩
    refine ⟨hs, ?_⟩
    rw [← List.length_pos, hl]
    omega
  · rintro ⟨hs, hne⟩
    refine ⟨c.length, ⟨?_, ?_⟩, hs, rfl⟩
    · have := List.length_pos.mpr hne
      omega
    · have := hs.length_le
      omega

/-! The best-so-far fold of `generate_combinations` -/

theorem gcStep_none (t tol : ℚ) (x : List Node) :
    gcStep t tol none x =
      if inBand t tol (totalPower x) then some (x, totalPower x) else none := by
  simp [gcStep]

theorem gcStep_some (t tol : ℚ) (b : List Node) (bp : ℚ) (x : List Node) :
    gcStep t tol (some (b, bp)) x =
      if inBand t tol (totalPower x) ∧ dev t (totalPower x) < dev t bp then
        some (x, totalPower x)
      else some (b, bp) := by
  by_cases h1 : inBand t tol (totalPower x)
  · by_cases h2 : dev t (totalPower x) < dev t bp <;> simp [gcStep, h1, h2]
  · simp [gcStep, h1]

theorem foldl_gcStep_some_ne_none (t tol : ℚ) :
    ∀ (L : List (List Node)) (b : List Node × ℚ),
      L.foldl (gcStep t tol) (some b) ≠ none := by
  intro L
  induction L with
  | nil => intro b h; exact Option.noConfusion h
  | cons x xs ih =>
    rintro ⟨b, bp⟩ h
    rw [List.foldl_cons, gcStep_some] at h
    split_ifs at h <;> exact ih _ h

theorem foldl_gcStep_eq_none_iff (t tol : ℚ) :
    ∀ L : List (List Node),
      L.foldl (gcStep t tol) none = none ↔
        ∀ x ∈ L, ¬ inBand t tol (totalPower x) := by
  intro L
  induction L with
  | nil => simp
  | cons x xs ih =>
    rw [List.foldl_cons, gcStep_none]
    split_ifs with h
    · simp only [List.mem_cons]
      constructor
      · intro hc
        exact absurd hc (foldl_gcStep_some_ne_none t tol xs _)
      · intro hall
        exact absurd h (hall x (Or.inl rfl))
    · simp [ih, h]

theorem foldl_gcStep_shape (t tol : ℚ) :
    ∀ (L : List (List Node)) (acc : Option (List Node × ℚ)) (c : List Node) (p : ℚ),
      L.foldl (gcStep t tol) acc = some (c, p) →
        acc = some (c, p) ∨ (c ∈ L ∧ p = totalPower c ∧ inBand t tol p) := by
  intro L
  induction L with
  | nil =>
    intro acc c p h
    exact Or.inl h
  | cons x xs ih =>
    intro acc c p h
    rw [List.foldl_cons] at h
    rcases ih (gcStep t tol acc x) c p h with hacc | ⟨hmem, hp, hband⟩
    · cases acc with
      | none =>
        rw [gcStep_none] at hacc
        split_ifs at hacc with hb
        injection hacc with h1
        injection h1 with h2 h3
        subst h2
        subst h3
        exact Or.inr ⟨List.mem_cons_self _ _, rfl, hb⟩
      | some b =>
        obtain ⟨b, bp⟩ := b
        rw [gcStep_some] at hacc
        split_ifs at hacc with hb
        · injection hacc with h1
          injection h1 with h2 h3
          subst h2
          subst h3
          exact Or.inr ⟨List.mem_cons_self _ _, rfl, hb.1⟩
        · exact Or.inl hacc
    · exact Or.inr ⟨List.mem_cons_of_mem _ hmem, hp, hband⟩

theorem foldl_gcStep_opt_some (t tol : ℚ) :
    ∀ (L : List (List Node)) (b : List Node) (bp : ℚ) (c : List Node) (p : ℚ),
      L.foldl (gcStep t tol) (some (b, bp)) = some (c, p) →
        dev t p ≤ dev t bp ∧
          ∀ x ∈ L, inBand t tol (totalPower x) → dev t p ≤ dev t (totalPower x) := by
  intro L
  induction L with
  | nil =>
    intro b bp c p h
    injection h with h1
    injection h1 with h2 h3
    subst h2
    subst h3
    exact ⟨le_refl _, by simp⟩
  | cons x xs ih =>
    intro b bp c p h
    rw [List.foldl_cons, gcStep_some] at h
    split_ifs at h with hx
    · obtain ⟨h1, h2⟩ := ih _ _ _ _ h
      refine ⟨h1.trans (le_of_lt hx.2), ?_⟩
      intro y hy hband
      rcases List.mem_cons.mp hy with rfl | hy'
      · exact h1
      · exact h2 y hy' hband
    · obtain ⟨h1, h2⟩ := ih _ _ _ _ h
      refine ⟨h1, ?_⟩
      intro y hy hband
      rcases List.mem_cons.mp hy with rfl | hy'
      · have : ¬ dev t (totalPower y) < dev t bp := fun hlt => hx ⟨hband, hlt⟩
        exact h1.trans (not_lt.mp this)
      · exact h2 y hy' hband

theorem foldl_gcStep_opt_none (t tol : ℚ) :
    ∀ (L : List (List Node)) (c : List Node) (p : ℚ),
      L.foldl (gcStep t tol) none = some (c, p) →
        ∀ x ∈ L, inBand t tol (totalPower x) → dev t p ≤ dev t (totalPower x) := by
  intro L
  induction L with
  | nil =>
    intro c p h
    exact absurd h (by simp)
  | cons x xs ih =>
    intro c p h
    rw [List.foldl_cons, gcStep_none] at h
    split_ifs at h with hx
    · obtain ⟨h1, h2⟩ := foldl_gcStep_opt_some t tol xs _ _ _ _ h
      intro y hy hband
      rcases List.mem_cons.mp hy with rfl | hy'
      · exact h1
      · exact h2 y hy' hband
    · intro y hy hband
      rcases List.mem_cons.mp hy with rfl | hy'
      · exact absurd hband hx
      · exact ih c p h y hy' hband

theorem foldl_gcStep_first_some (t tol : ℚ) :
    ∀ (L : List (List Node)) (b : List Node) (bp : ℚ) (c : List Node) (p : ℚ),
      L.foldl (gcStep t tol) (some (b, bp)) = some (c, p) →
        (c = b ∧ p = bp) ∨
          ∃ l₁ l₂, L = l₁ ++ c :: l₂ ∧ p = totalPower c ∧ dev t p < dev t bp ∧
            ∀ x ∈ l₁, inBand t tol (totalPower x) → dev t p < dev t (totalPower x) := by
  intro L
  induction L with
  | nil =>
    intro b bp c p h
    injection h with h1
    injection h1 with h2 h3
    exact Or.inl ⟨h2.symm, h3.symm⟩
  | cons x xs ih =>
    intro b bp c p h
    rw [List.foldl_cons, gcStep_some] at h
    split_ifs at h with hx
    · rcases ih _ _ _ _ h with ⟨rfl, rfl⟩ | ⟨l₁, l₂, rfl, hp, hlt, hall⟩
      · exact Or.inr ⟨[], xs, rfl, rfl, hx.2, by simp⟩
      · refine Or.inr ⟨x :: l₁, l₂, rfl, hp, hlt.trans hx.2, ?_⟩
        intro y hy hband
        rcases List.mem_cons.mp hy with rfl | hy'
        · exact hlt
        · exact hall y hy' hband
    · rcases ih _ _ _ _ h with hleft | ⟨l₁, l₂, rfl, hp, hlt, hall⟩
      · exact Or.inl hleft
      · refine Or.inr ⟨x :: l₁, l₂, rfl, hp, hlt, ?_⟩
        intro y hy hband
        rcases List.mem_cons.mp hy with rfl | hy'
        · have : ¬ dev t (totalPower y) < dev t bp := fun h' => hx ⟨hband, h'⟩
          exact lt_of_lt_of_le hlt (not_lt.mp this)
        · exact hall y hy' hband

theorem foldl_gcStep_first_none (t tol : ℚ) :
    ∀ (L : List (List Node)) (c : List Node) (p : ℚ),
      L.foldl (gcStep t tol) none = some (c, p) →
        ∃ l₁ l₂, L = l₁ ++ c :: l₂ ∧ p = totalPower c ∧
          ∀ x ∈ l₁, inBand t tol (totalPower x) → dev t p < dev t (totalPower x) := by
  intro L
  induction L with
  | nil =>
    intro c p h
    exact absurd h (by simp)
  | cons x xs ih =>
    intro c p h
    rw [List.foldl_cons, gcStep_none] at h
    split_ifs at h with hx
    · rcases foldl_gcStep_first_some t tol xs _ _ _ _ h with ⟨rfl, rfl⟩ |
        ⟨l₁, l₂, rfl, hp, hlt, hall⟩
      · exact ⟨[], xs, rfl, rfl, by simp⟩
      · refine ⟨x :: l₁, l₂, rfl, hp, ?_⟩
        intro y hy hband
        rcases List.mem_cons.mp hy with rfl | hy'
        · exact hlt
        · exact hall y hy' hband
    · obtain ⟨l₁, l₂, rfl, hp, hall⟩ := ih c p h
      refine ⟨x :: l₁, l₂, rfl, hp, ?_⟩
      intro y hy hband
      rcases List.mem_cons.mp hy with rfl | hy'
      · exact absurd hband hx
      · exact hall y hy' hband

/-! The Subset Matcher: assembled specification -/

theorem generate_combinations_none_iff (nodes : List Node) (t tol : ℚ) :
    generate_combinations nodes t tol = none ↔
      ∀ s, List.Sublist s nodes → s ≠ [] → ¬ inBand t tol (totalPower s) := by
  unfold generate_combinations
  rw [foldl_gcStep_eq_none_iff]
  constructor
  · intro h s hs hne
    exact h s ((mem_allCombinations nodes s).mpr ⟨hs, hne⟩)
  · intro h x hx
    obtain ⟨hs, hne⟩ := (mem_allCombinations nodes x).mp hx
    exact h x hs hne

theorem generate_combinations_some_spec (nodes : List Node) (t tol : ℚ)
    (c : List Node) (p : ℚ)
    (h : generate_combinations nodes t tol = some (c, p)) :
    p = totalPower c ∧ inBand t tol p ∧ List.Sublist c nodes ∧ c ≠ [] ∧
      (∀ s, List.Sublist s nodes → s ≠ [] → inBand t tol (totalPower s) →
        dev t p ≤ dev t (totalPower s)) ∧
      ∃ l₁ l₂, allCombinations nodes = l₁ ++ c :: l₂ ∧
        ∀ s ∈ l₁, inBand t tol (totalPower s) → dev t p < dev t (totalPower s) := by
  rcases foldl_gcStep_shape t tol (allCombinations nodes) none c p h with
    habs | ⟨hmem, hp, hband⟩
  · exact absurd habs (by simp)
  obtain ⟨hs, hne⟩ := (mem_allCombinations nodes c).mp hmem
  obtain ⟨l₁, l₂, hdecomp, _, hfirst⟩ :=
    foldl_gcStep_first_none t tol (allCombinations nodes) c p h
  refine ⟨hp, hband, hs, hne, ?_, l₁, l₂, hdecomp, hfirst⟩
  intro s hs' hne' hband'
  exact foldl_gcStep_opt_none t tol (allCombinations nodes) c p h s
    ((mem_allCombinations nodes s).mpr ⟨hs', hne'⟩) hband'

theorem generate_combinations_nil (t tol : ℚ) :
    generate_combinations [] t tol = none := rfl

/-! The Tiered Selector: pools and loop structure -/

theorem poolAt_one (l1 l2 l3 l4 l5 : List Node) :
    poolAt (mkTiers l1 l2 l3 l4 l5) 1 = [] := rfl

theorem poolAt_two (l1 l2 l3 l4 l5 : List Node) :
    poolAt (mkTiers l1 l2 l3 l4 l5) 2 = l5 := by
  show [] ++ l5 = l5
  simp

theorem poolAt_three (l1 l2 l3 l4 l5 : List Node) :
    poolAt (mkTiers l1 l2 l3 l4 l5) 3 = l5 ++ l4 := by
  show ([] ++ l5) ++ l4 = l5 ++ l4
  simp

theorem poolAt_four (l1 l2 l3 l4 l5 : List Node) :
    poolAt (mkTiers l1 l2 l3 l4 l5) 4 = (l5 ++ l4) ++ l3 := by
  show (([] ++ l5) ++ l4) ++ l3 = (l5 ++ l4) ++ l3
  simp

theorem poolAt_five (l1 l2 l3 l4 l5 : List Node) :
    poolAt (mkTiers l1 l2 l3 l4 l5) 5 = ((l5 ++ l4) ++ l3) ++ l2 := by
  show ((([] ++ l5) ++ l4) ++ l3) ++ l2 = ((l5 ++ l4) ++ l3) ++ l2
  simp

theorem nodesToCheck_mkTiers (l1 l2 l3 l4 l5 : List Node) :
    ∀ r, r ≤ 5 →
      nodesToCheck (mkTiers l1 l2 l3 l4 l5) r =
        Except.ok (poolAt (mkTiers l1 l2 l3 l4 l5) r) := by
  intro r hr
  interval_cases r <;> rfl

theorem findCombinationAux_succ (tiers : Tiers) (t tol : ℚ) (r : ℕ)
    (pool : List Node) (h : nodesToCheck tiers (r + 1) = Except.ok pool) :
    findCombinationAux tiers t tol (r + 1) =
      match generate_combinations pool t tol with
      | some (c, p) => Except.ok (c, some p, true)
      | none => findCombinationAux tiers t tol r := by
  show (do
      let pool ← nodesToCheck tiers (r + 1)
      match generate_combinations pool t tol with
      | some (c, p) => Except.ok (c, some p, true)
      | none => findCombinationAux tiers t tol r) =
    (match generate_combinations pool t tol with
      | some (c, p) => Except.ok (c, some p, true)
      | none => findCombinationAux tiers t tol r)
  rw [h]
  rfl

theorem find_combination_mkTiers_spec (l1 l2 l3 l4 l5 : List Node) (t tol : ℚ) :
    (find_combination (mkTiers l1 l2 l3 l4 l5) t tol = Except.ok ([], none, false) ∧
      ∀ r, 1 ≤ r → r ≤ 5 →
        generate_combinations (poolAt (mkTiers l1 l2 l3 l4 l5) r) t tol = none) ∨
    (∃ r c p, 1 ≤ r ∧ r ≤ 5 ∧
      generate_combinations (poolAt (mkTiers l1 l2 l3 l4 l5) r) t tol = some (c, p) ∧
      (∀ r', r < r' → r' ≤ 5 →
        generate_combinations (poolAt (mkTiers l1 l2 l3 l4 l5) r') t tol = none) ∧
      find_combination (mkTiers l1 l2 l3 l4 l5) t tol = Except.ok (c, some p, true)) := by
  set T := mkTiers l1 l2 l3 l4 l5 with hT
  have e5 := nodesToCheck_mkTiers l1 l2 l3 l4 l5 5 (by omega)
  have e4 := nodesToCheck_mkTiers l1 l2 l3 l4 l5 4 (by omega)
  have e3 := nodesToCheck_mkTiers l1 l2 l3 l4 l5 3 (by omega)
  have e2 := nodesToCheck_mkTiers l1 l2 l3 l4 l5 2 (by omega)
  have e1 := nodesToCheck_mkTiers l1 l2 l3 l4 l5 1 (by omega)
  rw [← hT] at e5 e4 e3 e2 e1
  have step5 := findCombinationAux_succ T t tol 4 (poolAt T 5) e5
  have step4 := findCombinationAux_succ T t tol 3 (poolAt T 4) e4
  have step3 := findCombinationAux_succ T t tol 2 (poolAt T 3) e3
  have step2 := findCombinationAux_succ T t tol 1 (poolAt T 2) e2
  have step1 := findCombinationAux_succ T t tol 0 (poolAt T 1) e1
  have hg1 : generate_combinations (poolAt T 1) t tol = none := by
    rw [hT, poolAt_one]
    exact generate_combinations_nil t tol
  cases h5 : generate_combinations (poolAt T 5) t tol with
  | some cp =>
    obtain ⟨c, p⟩ := cp
    refine Or.inr ⟨5, c, p, by omega, by omega, h5, ?_, ?_⟩
    · intro r' hr1 hr2
      omega
    · show findCombinationAux T t tol 5 = _
      rw [step5, h5]
  | none =>
    have f5 : findCombinationAux T t tol 5 = findCombinationAux T t tol 4 := by
      rw [step5, h5]
    cases h4 : generate_combinations (poolAt T 4) t tol with
    | some cp =>
      obtain ⟨c, p⟩ := cp
      refine Or.inr ⟨4, c, p, by omega, by omega, h4, ?_, ?_⟩
      · intro r' hr1 hr2
        have : r' = 5 := by omega
        rw [this]
        exact h5
      · show findCombinationAux T t tol 5 = _
        rw [f5, step4, h4]
    | none =>
      have f4 : findCombinationAux T t tol 4 = findCombinationAux T t tol 3 := by
        rw [step4, h4]
      cases h3 : generate_combinations (poolAt T 3) t tol with
      | some cp =>
        obtain ⟨c, p⟩ := cp
        refine Or.inr ⟨3, c, p, by omega, by omega, h3, ?_, ?_⟩
        · intro r' hr1 hr2
          interval_cases r'
          · exact h4
          · exact h5
        · show findCombinationAux T t tol 5 = _
          rw [f5, f4, step3, h3]
      | none =>
        have f3 : findCombinationAux T t tol 3 = findCombinationAux T t tol 2 := by
          rw [step3, h3]
        cases h2 : generate_combinations (poolAt T 2) t tol with
        | some cp =>
          obtain ⟨c, p⟩ := cp
          refine Or.inr ⟨2, c, p, by omega, by omega, h2, ?_, ?_⟩
          · intro r' hr1 hr2
            interval_cases r'
            · exact h3
            · exact h4
            · exact h5
          · show findCombinationAux T t tol 5 = _
            rw [f5, f4, f3, step2, h2]
        | none =>
          have f2 : findCombinationAux T t tol 2 = findCombinationAux T t tol 1 := by
            rw [step2, h2]
          have f1 : findCombinationAux T t tol 1 = Except.ok ([], none, false) := by
            rw [step1, hg1]
            rfl
          refine Or.inl ⟨?_, ?_⟩
          · show findCombinationAux T t tol 5 = _
            rw [f5, f4, f3, f2, f1]
          · intro r hr1 hr2
            interval_cases r
            · exact hg1
            · exact h2
            · exact h3
            · exact h4
            · exact h5

theorem poolAt_zero (l1 l2 l3 l4 l5 : List Node) :
    poolAt (mkTiers l1 l2 l3 l4 l5) 0 = [] := rfl

theorem mem_poolAt_mkTiers (l1 l2 l3 l4 l5 : List Node) (r : ℕ) (hr : r ≤ 5)
    (x : Node) (hx : x ∈ poolAt (mkTiers l1 l2 l3 l4 l5) r) :
    x ∈ l2 ∨ x ∈ l3 ∨ x ∈ l4 ∨ x ∈ l5 := by
  interval_cases r
  · rw [poolAt_zero] at hx
    exact absurd hx (List.not_mem_nil x)
  · rw [poolAt_one] at hx
    exact absurd hx (List.not_mem_nil x)
  · rw [poolAt_two] at hx
    tauto
  · rw [poolAt_three, List.mem_append] at hx
    tauto
  · rw [poolAt_four, List.mem_append, List.mem_append] at hx
    tauto
  · rw [poolAt_five, List.mem_append, List.mem_append, List.mem_append] at hx
    tauto

/-! Claims of the specification, settled against the model -/

/-- Claim C1, evidence of the divergence: the claim (and the source's own
comments) say the pool at radius `r = 5` holds only priority-5 loads and the
pool at `r = 1` holds the full catalog.  The loop bound `range(5, 6 - r, -1)`
instead visits priorities 5 down to `7 - r`: at `r = 5` the pool built for
this catalog is the priority-5 load followed by the priority-2 load, and at
`r = 1` the pool is empty. -/
theorem C1_radius_pool_eval :
    nodesToCheck
        (mkTiers [⟨10, 1, false⟩] [⟨20, 2, false⟩] [] [] [⟨90, 5, false⟩]) 5 =
      Except.ok [⟨90, 5, false⟩, ⟨20, 2, false⟩] ∧
    nodesToCheck
        (mkTiers [⟨10, 1, false⟩] [⟨20, 2, false⟩] [] [] [⟨90, 5, false⟩]) 1 =
      Except.ok [] := by
  exact ⟨rfl, rfl⟩

/-- Claim C2, evidence of the divergence: with tiers `4 ↦ [5 kW]` and
`5 ↦ [10 kW]`, target 5 and tolerance 5, the pure priority-5 subset `[10 kW]`
lies inside the band `[0, 10]`, yet the Selector returns the priority-4 load:
its very first pool already mixes tiers 2–5, and the closer match wins. -/
theorem C2_escalation_eval :
    find_combination (mkTiers [] [] [] [⟨5, 4, false⟩] [⟨10, 5, false⟩]) 5 5 =
      Except.ok ([⟨5, 4, false⟩], some 5, true) ∧
    inBand 5 5 (totalPower [⟨10, 5, false⟩]) := by
  constructor
  · norm_num [find_combination, findCombinationAux, nodesToCheck,
      radiusPriorities, List.range', List.foldlM, getTier, mkTiers, bind,
      Except.bind, pure, Except.pure, generate_combinations, allCombinations,
      pyCombinations, gcStep, inBand, dev, totalPower]
  · norm_num [inBand, totalPower]

/-- Claim C3 (confirmed): if the Subset Matcher returns `(c, p)`, then `p` is
the power sum of `c`, the deviation `|p − target|` is minimal among all
non-empty sub-lists of the candidates whose sum lies in the band, and `c` is
the first combination attaining that minimum in the enumeration order (sizes
1 up to n, lexicographic within a size): every in-band combination listed
strictly before `c` has strictly larger deviation. -/
theorem C3_matcher_optimality (nodes : List Node) (t tol : ℚ) (c : List Node)
    (p : ℚ) (htol : 0 ≤ tol)
    (h : generate_combinations nodes t tol = some (c, p)) :
    p = totalPower c ∧
    (∀ s, List.Sublist s nodes → s ≠ [] → inBand t tol (totalPower s) →
      dev t p ≤ dev t (totalPower s)) ∧
    ∃ l₁ l₂, allCombinations nodes = l₁ ++ c :: l₂ ∧
      ∀ s ∈ l₁, inBand t tol (totalPower s) → dev t p < dev t (totalPower s) := by
  obtain ⟨hp, _, _, _, hopt, hfirst⟩ :=
    generate_combinations_some_spec nodes t tol c p h
  exact ⟨hp, hopt, hfirst⟩

theorem C3_matcher_optimality_witness :
    dev 200 (200 : ℚ) ≤
      dev 200 (totalPower [⟨100, 5, false⟩, ⟨110, 5, false⟩]) :=
  (C3_matcher_optimality
      [⟨90, 5, false⟩, ⟨100, 5, false⟩, ⟨110, 5, false⟩] 200 20
      [⟨90, 5, false⟩, ⟨110, 5, false⟩] 200
      (by norm_num)
      (by norm_num [generate_combinations, allCombinations, pyCombinations,
        gcStep, inBand, dev, totalPower, List.range'])).2.1
    [⟨100, 5, false⟩, ⟨110, 5, false⟩]
    (List.Sublist.cons _ (List.Sublist.cons₂ _ (List.Sublist.cons₂ _
      (List.nil_sublist []))))
    (by simp)
    (by norm_num [inBand, totalPower])

/-- Claim C4 (confirmed): for a non-empty candidate list and tolerance ≥ 0,
any match the Subset Matcher returns has its total inside
`[target − tolerance, target + tolerance]`, and if no non-empty sub-list of
the candidates has a sum in the band then the Matcher returns the
none/none pair. -/
theorem C4_matcher_band (nodes : List Node) (t tol : ℚ) (hne : nodes ≠ [])
    (htol : 0 ≤ tol) :
    (∀ c p, generate_combinations nodes t tol = some (c, p) →
      t - tol ≤ p ∧ p ≤ t + tol) ∧
    ((∀ s, List.Sublist s nodes → s ≠ [] → ¬ inBand t tol (totalPower s)) →
      generate_combinations nodes t tol = none) := by
  constructor
  · intro c p h
    exact (generate_combinations_some_spec nodes t tol c p h).2.1
  · intro h
    exact (generate_combinations_none_iff nodes t tol).mpr h

theorem C4_matcher_band_witness :
    (200 : ℚ) - 20 ≤ 210 ∧ (210 : ℚ) ≤ 200 + 20 :=
  (C4_matcher_band [⟨100, 5, false⟩, ⟨110, 5, false⟩] 200 20
      (by simp) (by norm_num)).1
    [⟨100, 5, false⟩, ⟨110, 5, false⟩] 210
    (by norm_num [generate_combinations, allCombinations, pyCombinations,
      gcStep, inBand, dev, totalPower, List.range'])

/-- Claim C5, the counterexample at the empty mapping: `select({}, 100, 10)`
does not return `(∅, none, false)` — the very first dictionary lookup
`nodes_by_priority[5]` raises `KeyError`. -/
theorem C5_empty_map_faults :
    find_combination (fun _ => none) 100 10 = Except.error PyError.keyError :=
  rfl

/-- Claim C5 as amended (proved): when the catalog maps every priority 1–5 to
an empty tier, every candidate pool is empty, nothing is enumerated, and the
Selector returns the empty selection, no total and `satisfied = false`
without fault.  (For the literal empty mapping the code instead raises
`KeyError`.) -/
theorem C5_all_tiers_empty (t tol : ℚ) :
    find_combination (mkTiers [] [] [] [] []) t tol =
      Except.ok ([], none, false) :=
  rfl

/-- Claim C6, the counterexample: a request with `target_power = -1 < 0` is
not rejected — the search runs in full and here even returns a satisfied
selection (band `[-3, 1]` contains the 1 kW load). -/
theorem C6_negative_target_runs :
    find_combination (mkTiers [] [] [] [] [⟨1, 5, false⟩]) (-1) 2 =
      Except.ok ([⟨1, 5, false⟩], some 1, true) := by
  norm_num [find_combination, findCombinationAux, nodesToCheck,
    radiusPriorities, List.range', List.foldlM, getTier, mkTiers, bind,
    Except.bind, pure, Except.pure, generate_combinations, allCombinations,
    pyCombinations, gcStep, inBand, dev, totalPower]

/-- Claim C6 as amended (proved): the core performs no validation and raises
no `InvalidRequest`; an invalid request is processed by the ordinary search.
In particular with `tolerance < 0` the band is empty, so the search runs
through every radius and ends unsatisfied. -/
theorem C6_no_validation (l1 l2 l3 l4 l5 : List Node) (t tol : ℚ)
    (htol : tol < 0) :
    find_combination (mkTiers l1 l2 l3 l4 l5) t tol =
      Except.ok ([], none, false) := by
  have hnone : ∀ pool : List Node, generate_combinations pool t tol = none := by
    intro pool
    rw [generate_combinations_none_iff]
    intro s _ _ hb
    simp only [inBand] at hb
    linarith [hb.1, hb.2]
  rcases find_combination_mkTiers_spec l1 l2 l3 l4 l5 t tol with ⟨hres, _⟩ |
    ⟨r, c, p, _, _, hsome, _, _⟩
  · exact hres
  · rw [hnone] at hsome
    exact Option.noConfusion hsome

theorem C6_no_validation_witness :
    find_combination (mkTiers [] [] [] [] [⟨7, 5, false⟩]) 3 (-1) =
      Except.ok ([], none, false) :=
  C6_no_validation [] [] [] [] [⟨7, 5, false⟩] 3 (-1) (by norm_num)

/-- Claim C7 (confirmed): if the Subset Matcher finds nothing at any radius
5, 4, 3, 2, 1, the Selector returns the empty selection, no total and
`satisfied = false`; and if some radius yields a match while every earlier
radius (larger `r`) yields none, the Selector stops there and returns that
subset, its total and `satisfied = true`. -/
theorem C7_first_match_or_exhaustion (l1 l2 l3 l4 l5 : List Node) (t tol : ℚ) :
    ((∀ r, 1 ≤ r → r ≤ 5 →
        generate_combinations (poolAt (mkTiers l1 l2 l3 l4 l5) r) t tol = none) →
      find_combination (mkTiers l1 l2 l3 l4 l5) t tol =
        Except.ok ([], none, false)) ∧
    (∀ r c p, 1 ≤ r → r ≤ 5 →
      generate_combinations (poolAt (mkTiers l1 l2 l3 l4 l5) r) t tol =
        some (c, p) →
      (∀ r', r < r' → r' ≤ 5 →
        generate_combinations (poolAt (mkTiers l1 l2 l3 l4 l5) r') t tol =
          none) →
      find_combination (mkTiers l1 l2 l3 l4 l5) t tol =
        Except.ok (c, some p, true)) := by
  constructor
  · intro hall
    rcases find_combination_mkTiers_spec l1 l2 l3 l4 l5 t tol with ⟨hres, _⟩ |
      ⟨r, c, p, hr1, hr5, hsome, _, _⟩
    · exact hres
    · rw [hall r hr1 hr5] at hsome
      exact Option.noConfusion hsome
  · intro r c p hr1 hr5 hsome hafter
    rcases find_combination_mkTiers_spec l1 l2 l3 l4 l5 t tol with ⟨_, hall⟩ |
      ⟨r₀, c₀, p₀, hr01, hr05, hsome₀, hafter₀, hres₀⟩
    · rw [hall r hr1 hr5] at hsome
      exact Option.noConfusion hsome
    · have hrr : r₀ = r := by
        by_contra hne
        rcases Nat.lt_or_ge r₀ r with hlt | hge
        · rw [hafter₀ r hlt hr5] at hsome
          exact Option.noConfusion hsome
        · have hlt' : r < r₀ := lt_of_le_of_ne hge fun h' => hne h'.symm
          rw [hafter r₀ hlt' hr05] at hsome₀
          exact Option.noConfusion hsome₀
      subst hrr
      have heq := hsome.symm.trans hsome₀
      injection heq with h1
      injection h1 with hc hp
      subst hc
      subst hp
      exact hres₀

theorem C7_first_match_or_exhaustion_witness :
    find_combination (mkTiers [] [] [] [] [⟨90, 5, false⟩]) 90 0 =
      Except.ok ([⟨90, 5, false⟩], some 90, true) :=
  (C7_first_match_or_exhaustion [] [] [] [] [⟨90, 5, false⟩] 90 0).2
    5 [⟨90, 5, false⟩] 90 (by omega) (by omega)
    (by norm_num [poolAt, radiusPriorities, List.range', mkTiers,
      generate_combinations, allCombinations, pyCombinations, gcStep, inBand,
      dev, totalPower])
    (fun r' h1 h2 => absurd h2 (Nat.not_le.mpr h1))

/-- Claim C8 (confirmed): for a well-formed catalog (each tier list holds
loads of its own priority), no candidate pool at any radius contains a
priority-1 load — the visited priorities stop at 2 — and hence the selection
the Selector returns never contains a priority-1 load. -/
theorem C8_priority_one_excluded (l1 l2 l3 l4 l5 : List Node) (t tol : ℚ)
    (h2 : ∀ x ∈ l2, Node.priority x = 2) (h3 : ∀ x ∈ l3, Node.priority x = 3)
    (h4 : ∀ x ∈ l4, Node.priority x = 4) (h5 : ∀ x ∈ l5, Node.priority x = 5) :
    (∀ r, r ≤ 5 → ∀ x ∈ poolAt (mkTiers l1 l2 l3 l4 l5) r,
      Node.priority x ≠ 1) ∧
    (∀ sel tot sat,
      find_combination (mkTiers l1 l2 l3 l4 l5) t tol =
        Except.ok (sel, tot, sat) →
      ∀ x ∈ sel, Node.priority x ≠ 1) := by
  have hmem : ∀ r, r ≤ 5 → ∀ x ∈ poolAt (mkTiers l1 l2 l3 l4 l5) r,
      Node.priority x ≠ 1 := by
    intro r hr x hx
    rcases mem_poolAt_mkTiers l1 l2 l3 l4 l5 r hr x hx with h | h | h | h
    · rw [h2 x h]; omega
    · rw [h3 x h]; omega
    · rw [h4 x h]; omega
    · rw [h5 x h]; omega
  refine ⟨hmem, ?_⟩
  intro sel tot sat hfind x hx
  rcases find_combination_mkTiers_spec l1 l2 l3 l4 l5 t tol with ⟨hres, _⟩ |
    ⟨r, c, p, hr1, hr5, hsome, _, hres⟩
  · have heq := hfind.symm.trans hres
    injection heq with h1
    injection h1 with ha hb
    subst ha
    exact absurd hx (List.not_mem_nil x)
  · have heq := hfind.symm.trans hres
    injection heq with h1
    injection h1 with ha hb
    subst ha
    have hsub := (generate_combinations_some_spec _ t tol sel p hsome).2.2.1
    exact hmem r hr5 x (hsub.subset hx)

theorem C8_priority_one_excluded_witness :
    Node.priority ⟨20, 2, false⟩ ≠ 1 :=
  (C8_priority_one_excluded [] [⟨20, 2, false⟩] [] [] [⟨90, 5, false⟩] 0 0
      (by simp) (by simp) (by simp) (by simp)).1
    5 (by omega) ⟨20, 2, false⟩
    (by rw [poolAt_five]; simp)

/-- Claim C9 (confirmed): whenever the Selector returns
`satisfied = true` the selection is non-empty and the achieved total is the
sum of the power ratings of exactly the selected loads; whenever it returns
`satisfied = false` the selection is empty and the total is `none`. -/
theorem C9_result_shape (l1 l2 l3 l4 l5 : List Node) (t tol : ℚ)
    (sel : List Node) (tot : Option ℚ) (sat : Bool)
    (h : find_combination (mkTiers l1 l2 l3 l4 l5) t tol =
      Except.ok (sel, tot, sat)) :
    (sat = true → sel ≠ [] ∧ tot = some (totalPower sel)) ∧
    (sat = false → sel = [] ∧ tot = none) := by
  rcases find_combination_mkTiers_spec l1 l2 l3 l4 l5 t tol with ⟨hres, _⟩ |
    ⟨r, c, p, hr1, hr5, hsome, _, hres⟩
  · have heq := h.symm.trans hres
    injection heq with h1
    injection h1 with ha h2'
    injection h2' with hb hc
    subst ha
    subst hb
    subst hc
    constructor
    · intro hs
      exact absurd hs (by simp)
    · intro _
      exact ⟨rfl, rfl⟩
  · have heq := h.symm.trans hres
    injection heq with h1
    injection h1 with ha h2'
    injection h2' with hb hc
    subst ha
    subst hb
    subst hc
    obtain ⟨hp, _, _, hne, _, _⟩ :=
      generate_combinations_some_spec _ t tol sel p hsome
    constructor
    · intro _
      exact ⟨hne, by rw [hp]⟩
    · intro hs
      exact absurd hs (by simp)

theorem C9_result_shape_witness :
    [(⟨40, 5, false⟩ : Node)] ≠ [] ∧
      (some (40 : ℚ)) = some (totalPower [⟨40, 5, false⟩]) :=
  (C9_result_shape [] [] [] [] [⟨40, 5, false⟩] 40 0 [⟨40, 5, false⟩]
      (some 40) true
      (by norm_num [find_combination, findCombinationAux, nodesToCheck,
        radiusPriorities, List.range', List.foldlM, getTier, mkTiers, bind,
        Except.bind, pure, Except.pure, generate_combinations, allCombinations,
        pyCombinations, gcStep, inBand, dev, totalPower])).1
    rfl

/-- Claim C10 (confirmed): the selection the Selector returns consists only
of loads of the original catalog — every selected node is an element of one
of the five tier lists (the pure model also witnesses that the search writes
no field of any `Node`: both functions only read `real_power`). -/
theorem C10_result_in_catalog (l1 l2 l3 l4 l5 : List Node) (t tol : ℚ)
    (sel : List Node) (tot : Option ℚ) (sat : Bool)
    (h : find_combination (mkTiers l1 l2 l3 l4 l5) t tol =
      Except.ok (sel, tot, sat)) :
    ∀ x ∈ sel, x ∈ l1 ++ l2 ++ l3 ++ l4 ++ l5 := by
  intro x hx
  rcases find_combination_mkTiers_spec l1 l2 l3 l4 l5 t tol with ⟨hres, _⟩ |
    ⟨r, c, p, hr1, hr5, hsome, _, hres⟩
  · have heq := h.symm.trans hres
    injection heq with h1
    injection h1 with ha hb
    subst ha
    exact absurd hx (List.not_mem_nil x)
  · have heq := h.symm.trans hres
    injection heq with h1
    injection h1 with ha hb
    subst ha
    have hsub := (generate_combinations_some_spec _ t tol sel p hsome).2.2.1
    have hpool := hsub.subset hx
    rcases mem_poolAt_mkTiers l1 l2 l3 l4 l5 r hr5 x hpool with hm | hm | hm | hm
      <;> simp [List.mem_append, hm]

theorem C10_result_in_catalog_witness :
    (⟨60, 5, false⟩ : Node) ∈
      ([] ++ [] ++ [] ++ [] ++ [⟨60, 5, false⟩] : List Node) :=
  C10_result_in_catalog [] [] [] [] [⟨60, 5, false⟩] 60 0 [⟨60, 5, false⟩]
    (some 60) true
    (by norm_num [find_combination, findCombinationAux, nodesToCheck,
      radiusPriorities, List.range', List.foldlM, getTier, mkTiers, bind,
      Except.bind, pure, Except.pure, generate_combinations, allCombinations,
      pyCombinations, gcStep, inBand, dev, totalPower])
    ⟨60, 5, false⟩ (by simp)
